import Mathlib

/-!
Verification development for the ZenML step/pipeline graph-building and
configuration-finalization engine (`src/zenml/steps/base_step.py` and
`src/zenml/steps/utils.py`).

The Python code is shallowly embedded: Python dicts become association
lists (insertion order preserved, as in CPython), Python sets of strings
become `Finset String`, raised exceptions become `Except` errors, and the
external collaborators (artifact store, materializer registry, metadata
store client) become explicit parameters or environment records.  Hash
functions (`hashlib.md5`, `get_hashed_source_code`) are abstract function
parameters: every property proved here holds for any choice of hash.
-/

namespace ZenML

/-- A resolved source path (`zenml.config.source.Source`), e.g. the import
path of a materializer class.  Modelled as a plain string. -/
abbrev Source := String

/-- A Python runtime type as it appears in step annotations: `Any`,
`type(None)`, or a concrete named class such as `int`. -/
inductive DataType
  | tAny
  | tNone
  | tNamed (name : String)
deriving DecidableEq, Repr

/-- The declared annotation of one step output after
`resolve_type_annotation`: either a single (non-union) type, or a union
whose members are types, with `Option.none` standing for an explicit
`None` member of the union (which `is_none_type` detects and the code maps
to `type(None)`). -/
inductive OutputAnnotation
  | simple (t : DataType)
  | union (members : List (Option DataType))
deriving DecidableEq, Repr

/-- JSON-representable parameter values. -/
inductive Value
  | vInt (n : Int)
  | vStr (s : String)
  | vBool (b : Bool)
  | vDict (entries : List (String × Value))
deriving Repr

/-- A Python dict with string keys, in insertion order. -/
abbrev Dict := List (String × Value)

/-- Dict lookup (`d.get(k)`). -/
def alistLookup {κ α : Type} [DecidableEq κ] (d : List (κ × α)) (k : κ) :
    Option α :=
  (d.find? (fun kv => kv.1 = k)).map (·.2)

/-- Dict assignment (`d[k] = v`): overwrites in place when the key exists,
appends otherwise (CPython insertion-order semantics). -/
def alistSet {κ α : Type} [DecidableEq κ] (d : List (κ × α)) (k : κ) (v : α) :
    List (κ × α) :=
  if (d.find? (fun kv => kv.1 = k)).isSome then
    d.map (fun kv => if kv.1 = k then (k, v) else kv)
  else
    d ++ [(k, v)]

/-- Dict membership (`k in d`). -/
def alistHas {κ α : Type} [DecidableEq κ] (d : List (κ × α)) (k : κ) : Bool :=
  d.any (fun kv => kv.1 = k)

/-- Shallow `dict.update`: each update entry overwrites or appends. -/
def shallowUpdate (base upd : Dict) : Dict :=
  upd.foldl (fun acc kv => alistSet acc kv.1 kv.2) base

mutual

/-- How `dict_utils.recursive_update` combines an existing value with an
update value: two dicts are merged recursively, anything else is replaced
by the update's value. -/
def mergeValue : Value → Value → Value
  | Value.vDict d1, Value.vDict d2 => Value.vDict (recursiveUpdate d1 d2)
  | _, v => v

/-- Modelled from the spec: `dict_utils.recursive_update` (the module
`zenml.utils.dict_utils` is not among the repository files staged here).
Per spec §4.3, mapping-typed fields "are merged key-by-key, with `update`'s
value winning on key collision; nested mapping values recurse". -/
def recursiveUpdate : Dict → Dict → Dict
  | base, [] => base
  | base, (k, v) :: rest =>
      let newV :=
        match alistLookup base k with
        | some old => mergeValue old v
        | none => v
      recursiveUpdate (alistSet base k newV) rest

end

/-- Per-output artifact configuration
(`zenml.config.step_configurations.PartialArtifactConfiguration`): the
explicitly configured materializer sources, if any. -/
structure ArtifactConfig where
  materializer_source : Option (List Source) := none
deriving Repr

/-- The mutable template configuration
(`zenml.config.step_configurations.PartialStepConfiguration`). -/
structure PartialStepConfiguration where
  name : String := ""
  enable_cache : Option Bool := none
  enable_artifact_metadata : Option Bool := none
  enable_artifact_visualization : Option Bool := none
  experiment_tracker : Option String := none
  step_operator : Option String := none
  parameters : Dict := []
  settings : Dict := []
  outputs : List (String × ArtifactConfig) := []
  extra : Dict := []
  failure_hook_source : Option Source := none
  success_hook_source : Option Source := none
deriving Repr

/-- A configuration patch (`StepConfigurationUpdate`) as produced by
`BaseStep.configure`: `dict_utils.remove_none_values` drops every `None`
argument before the update object is built, so a field is set exactly when
it carries a value (`Option.some`). -/
structure StepConfigurationUpdate where
  enable_cache : Option Bool := none
  enable_artifact_metadata : Option Bool := none
  enable_artifact_visualization : Option Bool := none
  experiment_tracker : Option String := none
  step_operator : Option String := none
  parameters : Option Dict := none
  settings : Option Dict := none
  outputs : Option (List (String × ArtifactConfig)) := none
  extra : Option Dict := none
  failure_hook_source : Option Source := none
  success_hook_source : Option Source := none
deriving Repr

/-- A set field of an update replaces the base field. -/
def setOr {α : Type} (upd : Option α) (base : Option α) : Option α :=
  match upd with
  | some v => some v
  | none => base

/-- Key-by-key merge of the per-output configurations: outputs merge per
output name, and within one output the update's set fields win. -/
def mergeOutputs (base upd : List (String × ArtifactConfig)) :
    List (String × ArtifactConfig) :=
  upd.foldl
    (fun acc kv =>
      let newV :=
        match alistLookup acc kv.1 with
        | some old =>
            { materializer_source :=
                setOr kv.2.materializer_source old.materializer_source }
        | none => kv.2
      alistSet acc kv.1 newV)
    base

/-- Modelled from the spec: `pydantic_utils.update_model` (the module
`zenml.utils.pydantic_utils` is not among the repository files staged
here).  Per spec §4.3 and the `BaseStep.configure` docstring: with
`recursive = false` every set field of the update fully replaces the
corresponding base field; with `recursive = true` scalar fields are
replaced while mapping-typed fields (parameters, settings, extra,
per-output entries) are merged key-by-key with the update winning on
collision. -/
def update_model (original : PartialStepConfiguration)
    (update : StepConfigurationUpdate) (recursive : Bool) :
    PartialStepConfiguration :=
  { name := original.name
    enable_cache := setOr update.enable_cache original.enable_cache
    enable_artifact_metadata :=
      setOr update.enable_artifact_metadata original.enable_artifact_metadata
    enable_artifact_visualization :=
      setOr update.enable_artifact_visualization
        original.enable_artifact_visualization
    experiment_tracker :=
      setOr update.experiment_tracker original.experiment_tracker
    step_operator := setOr update.step_operator original.step_operator
    parameters :=
      match update.parameters with
      | none => original.parameters
      | some p =>
          if recursive then recursiveUpdate original.parameters p else p
    settings :=
      match update.settings with
      | none => original.settings
      | some s =>
          if recursive then recursiveUpdate original.settings s else s
    outputs :=
      match update.outputs with
      | none => original.outputs
      | some o => if recursive then mergeOutputs original.outputs o else o
    extra :=
      match update.extra with
      | none => original.extra
      | some e => if recursive then recursiveUpdate original.extra e else e
    failure_hook_source :=
      setOr update.failure_hook_source original.failure_hook_source
    success_hook_source :=
      setOr update.success_hook_source original.success_hook_source }

/-- The errors raised by the engine.  Concrete Python classes:
`StepInterfaceError`, `MissingStepParameterError`, and bare `RuntimeError`
(for the ambiguous-ordering and artifact-store-mismatch cases); each
constructor quotes the data the Python message interpolates. -/
inductive StepError
  | materializerRequired (output : String)
  | materializerNotFound (output : String) (ty : DataType)
  | externalMaterializerNotFound (ty : DataType)
  | missingInput (key : String)
  | parameterWithoutParamClass
  | ambiguousUpstream
  | missingStepParameter (missing : List String)
  | variadicParams (func : String)
  | annotationAbsent (arg : String)
  | multipleParams (first second : String)
  | multipleContext (first second : String)
  | returnTypeAbsent (func : String)
  | artifactStoreMismatch
  | uriExists
  | invalidExternalArtifact
deriving DecidableEq, Repr

/-- The kind of a Python function parameter (`inspect.Parameter.kind`),
restricted to what the validator distinguishes: ordinary parameters versus
variadic positional (`*args`) and variadic keyword (`**kwargs`) capture. -/
inductive ParamKind
  | positionalOrKeyword
  | varPositional
  | varKeyword
deriving DecidableEq, Repr

/-- A legacy `BaseParameters` subclass: its pydantic fields (a `none`
default means the field is required) and whether its `Config.extra` is
`Extra.allow`. -/
structure LegacyParamsClass where
  fields : List (String × Option Value)
  extraAllow : Bool := false
deriving Repr

/-- The annotation of one entrypoint parameter, as
`validate_entrypoint_function` classifies it: a `BaseParameters` subclass,
a `StepContext` subclass, or a plain data type. -/
inductive ParamAnnotation
  | baseParameters (cls : LegacyParamsClass)
  | stepContext
  | plain (t : DataType)
deriving Repr

/-- One parameter of the entrypoint signature (`inspect.Parameter`):
its name, kind, and annotation (`none` when the annotation is
`Parameter.empty`). -/
structure FuncParam where
  name : String
  kind : ParamKind := .positionalOrKeyword
  annotation : Option ParamAnnotation := none
deriving Repr

/-- The return annotation of an entrypoint, before
`parse_return_type_annotations`: `noneType` is an explicit `-> None`,
`single` a plain type, `named` an `Output(...)` annotation naming several
outputs. -/
inductive ReturnAnnotation
  | noneType
  | single (t : OutputAnnotation)
  | named (outputs : List (String × OutputAnnotation))
deriving Repr

/-- An entrypoint callable's reflection data: name, parameters in
declaration order, and return annotation (`none` when the signature has
no return annotation at all). -/
structure EntrypointFunc where
  name : String
  params : List FuncParam
  returnAnnotation : Option ReturnAnnotation := none
deriving Repr

/-- `zenml.api.step_decorator.SINGLE_RETURN_OUT_NAME`: the default name a
single un-named output gets. -/
def SINGLE_RETURN_OUT_NAME : String := "output"

/-- `zenml.steps.utils.parse_return_type_annotations`: `None` yields no
outputs, a plain type yields one output under the default name, and an
`Output(...)` annotation yields its named outputs in declaration order
(the generic-alias collapsing of `resolve_type_annotation` is already
reflected in `OutputAnnotation` being resolved). -/
def parse_return_type_annotations :
    ReturnAnnotation → List (String × OutputAnnotation)
  | .noneType => []
  | .single t => [(SINGLE_RETURN_OUT_NAME, t)]
  | .named outs => outs

/-- `zenml.steps.base_step.EntrypointFunctionDefinition`: the typed
interface descriptor produced by `validate_entrypoint_function`. -/
structure EntrypointFunctionDefinition where
  inputs : List (String × DataType)
  outputs : List (String × OutputAnnotation)
  context : Option String
  params : Option (String × LegacyParamsClass)
deriving Repr

/-- The parameter loop of `validate_entrypoint_function`: walks the
parameters in order, rejecting variadic capture and missing annotations,
recording at most one `BaseParameters` parameter and at most one
`StepContext` parameter, and collecting every other parameter as a typed
input.  `ctx` and `par` carry what earlier parameters already claimed. -/
def validateParams (fname : String) :
    List FuncParam → List (String × DataType) → Option String →
    Option (String × LegacyParamsClass) →
    Except StepError
      (List (String × DataType) × Option String ×
        Option (String × LegacyParamsClass))
  | [], inputs, ctx, par => .ok (inputs, ctx, par)
  | p :: rest, inputs, ctx, par =>
      if p.kind = .varPositional ∨ p.kind = .varKeyword then
        .error (.variadicParams fname)
      else
        match p.annotation with
        | none => .error (.annotationAbsent p.name)
        | some (.baseParameters cls) =>
            match par with
            | some prev => .error (.multipleParams prev.1 p.name)
            | none => validateParams fname rest inputs ctx (some (p.name, cls))
        | some .stepContext =>
            match ctx with
            | some prev => .error (.multipleContext prev p.name)
            | none => validateParams fname rest inputs (some p.name) par
        | some (.plain t) =>
            validateParams fname rest (inputs ++ [(p.name, t)]) ctx par

/-- `zenml.steps.base_step.validate_entrypoint_function` (called with the
default empty `reserved_arguments`, so `validate_reserved_arguments` is a
no-op): validates every parameter, then requires a return annotation and
parses it into the outputs. -/
def validate_entrypoint_function (f : EntrypointFunc) :
    Except StepError EntrypointFunctionDefinition :=
  match validateParams f.name f.params [] none none with
  | .error e => .error e
  | .ok (inputs, ctx, par) =>
      match f.returnAnnotation with
      | none => .error (.returnTypeAbsent f.name)
      | some ret =>
          .ok
            { inputs := inputs
              outputs := parse_return_type_annotations ret
              context := ctx
              params := par }

/-- A step template: its source text (what `inspect.getsource` returns for
the class), its validated interface, and its current configuration. -/
structure StepModel where
  sourceCode : String
  entrypointDef : EntrypointFunctionDefinition
  configuration : PartialStepConfiguration
deriving Repr

/-- The names of `get_step_entrypoint_signature(step).parameters`: every
non-context parameter of the entrypoint, i.e. the typed inputs plus the
legacy `BaseParameters` parameter when there is one (`StepContext`
parameters are filtered out by `get_step_entrypoint_signature`). -/
def signatureParamNames (s : StepModel) : List String :=
  s.entrypointDef.inputs.map (·.1) ++
    (match s.entrypointDef.params with
     | some p => [p.1]
     | none => [])

/-! ### Upstream set computed by `BaseStep.__call__` (C1) -/

/-- The `after` argument of `BaseStep.__call__`: absent, a single
identifier string, or a sequence of identifier strings. -/
inductive AfterArg
  | noArg
  | single (s : String)
  | seq (ids : List String)
deriving DecidableEq, Repr

/-- The upstream set `BaseStep.__call__` passes to
`Pipeline.add_step`: it starts as the set of owning invocation
identifiers of the `StepArtifact` inputs; a string `after` is added with
`set.add`; for a sequence `after` the code evaluates
`upstream_steps.union(after)` — but Python's `set.union` returns a new
set and the result is discarded, so the set passed on is unchanged. -/
def compute_upstream_steps (inputInvocationIds : List String)
    (after : AfterArg) : Finset String :=
  let upstream := inputInvocationIds.toFinset
  match after with
  | .noArg => upstream
  | .single s => insert s upstream
  | .seq _ => upstream

/-! ### `BaseStep.__init__` caching flag (C10) -/

/-- The `enable_cache` resolution in `BaseStep.__init__`: when the caller
passes no explicit flag and the entrypoint requires a `StepContext`,
caching is explicitly disabled; otherwise the caller's value (or absence
of one) is kept. -/
def init_enable_cache (enable_cache : Option Bool)
    (requiresContext : Bool) : Option Bool :=
  match enable_cache with
  | none => if requiresContext then some false else none
  | some b => some b

/-- The `PartialStepConfiguration` built at the end of
`BaseStep.__init__` (before `self.configure(...)` applies the remaining
keyword arguments). -/
def init_configuration (name : String) (enable_cache
    enable_artifact_metadata enable_artifact_visualization : Option Bool)
    (requiresContext : Bool) : PartialStepConfiguration :=
  { name := name
    enable_cache := init_enable_cache enable_cache requiresContext
    enable_artifact_metadata := enable_artifact_metadata
    enable_artifact_visualization := enable_artifact_visualization }

/-! ### Caching fingerprint (`BaseStep.caching_parameters`, C4) -/

/-- `zenml.constants.STEP_SOURCE_PARAMETER_NAME`. -/
def STEP_SOURCE_PARAMETER_NAME : String := "step_source"

/-- `BaseStep.caching_parameters`.  `hashSrc` stands for
`source_code_utils.get_hashed_source_code` applied to the step class;
`matHash src` stands for `get_hashed_source_code(source_utils.load(src))`
for a materializer source; `md5` stands for
`hashlib.md5(...).hexdigest()` of the concatenated update bytes.  One
entry is keyed by the fixed source key; for every configured output whose
`materializer_source` is truthy (non-`None` and non-empty), one entry is
keyed `{name}_materializer_source` and holds the md5 of the concatenation
of the per-materializer content hashes, in order. -/
def caching_parameters (hashSrc : String → String) (md5 : String → String)
    (matHash : Source → String) (s : StepModel) : List (String × String) :=
  (STEP_SOURCE_PARAMETER_NAME, hashSrc s.sourceCode) ::
    s.configuration.outputs.filterMap
      (fun kv =>
        match kv.2.materializer_source with
        | some srcs =>
            if srcs.isEmpty then none
            else
              some (kv.1 ++ "_materializer_source",
                md5 (String.join (srcs.map matHash)))
        | none => none)

/-! ### Materializer resolution in `BaseStep._finalize_configuration` (C5) -/

/-- The global type→materializer registry
(`materializer_registry`): an association of types to materializer
sources.  `materializer_registry.is_registered(t)` is
`(registryLookup reg t).isSome` and `materializer_registry[t]` (followed
by `source_utils.resolve`) is the stored source. -/
def registryLookup (reg : List (DataType × Source)) (t : DataType) :
    Option Source :=
  (reg.find? (fun p => p.1 = t)).map (·.2)

/-- The inner loop over `output_types` in
`BaseStep._finalize_configuration`: resolves each type against the
registry in order, failing at the first unregistered type with an error
naming the output and that type. -/
def resolveOutputTypes (reg : List (DataType × Source))
    (outputName : String) : List DataType → Except StepError (List Source)
  | [] => .ok []
  | t :: rest =>
      match registryLookup reg t with
      | some src => (resolveOutputTypes reg outputName rest).map (src :: ·)
      | none => .error (.materializerNotFound outputName t)

/-- The decomposition of an output annotation into `output_types`: a
union yields its members in declaration order with an explicit `None`
member mapped to `type(None)`; a non-union yields itself alone. -/
def outputTypes : OutputAnnotation → List DataType
  | .simple t => [t]
  | .union ms => ms.map (fun m => m.getD DataType.tNone)

/-- The per-output body of the outputs loop in
`BaseStep._finalize_configuration`: when the output has no explicit
materializer sources configured, an `Any` annotation is rejected,
otherwise every decomposed output type is resolved against the registry
and the resolved list is recorded (`Option.some`); when explicit sources
exist the loop records nothing for this output (`Option.none`). -/
def finalize_output_materializer_source (reg : List (DataType × Source))
    (name : String) (ann : OutputAnnotation)
    (explicit : Option (List Source)) :
    Except StepError (Option (List Source)) :=
  if (explicit.getD []).isEmpty then
    match ann with
    | .simple .tAny => .error (.materializerRequired name)
    | _ => (resolveOutputTypes reg name (outputTypes ann)).map some
  else
    .ok none

/-! ### Parameter validation and finalization (C2, C8) -/

/-- `BaseStep._validate_function_parameters`: every configured parameter
key that is not a typed entrypoint input requires the entrypoint to have
a `BaseParameters` parameter (the per-key pydantic `validate_input` call
for typed inputs is an external validation, modelled as succeeding). -/
def validate_function_parameters (s : StepModel) :
    Dict → Except StepError Unit
  | [] => .ok ()
  | (k, _) :: rest =>
      if s.entrypointDef.inputs.any (fun i => i.1 = k) then
        validate_function_parameters s rest
      else if s.entrypointDef.params.isSome then
        validate_function_parameters s rest
      else .error .parameterWithoutParamClass

/-- `BaseStep.configure(parameters=ps, merge=merge)` restricted to the
parameters field (the only field the finalization path passes): the
update is validated (`_validate_configuration`; the settings and outputs
of this update are empty so their checks are vacuous) and then applied
through `update_model` with `recursive := merge`
(`BaseStep._apply_configuration`). -/
def configure_parameters (s : StepModel) (ps : Dict) (merge : Bool) :
    Except StepError StepModel :=
  match validate_function_parameters s ps with
  | .error e => .error e
  | .ok _ =>
      .ok { s with
        configuration :=
          update_model s.configuration { parameters := some ps } merge }

/-- `BaseStep._finalize_legacy_parameters`: collects one value per field
of the `BaseParameters` class — an individually configured value first,
then a value from the dict configured under the parameter object's name,
then the field default — accumulating the required fields that have no
value; with `Extra.allow` all configured parameters are copied on top.
(The final pydantic instantiation check is an external validation,
modelled as succeeding.) -/
def finalize_legacy_parameters (s : StepModel) : Except StepError Dict :=
  match s.entrypointDef.params with
  | none => .ok []
  | some (pname, cls) =>
      let paramsNewWay : Dict :=
        match alistLookup s.configuration.parameters pname with
        | some (Value.vDict d) => d
        | _ => []
      let collected :=
        cls.fields.foldl
          (fun (acc : Dict × List String) f =>
            match alistLookup s.configuration.parameters f.1 with
            | some v => (acc.1 ++ [(f.1, v)], acc.2)
            | none =>
                match alistLookup paramsNewWay f.1 with
                | some v => (acc.1 ++ [(f.1, v)], acc.2)
                | none =>
                    match f.2 with
                    | none => (acc.1, acc.2 ++ [f.1])
                    | some d => (acc.1 ++ [(f.1, d)], acc.2))
          ([], [])
      if collected.2.isEmpty then
        .ok (if cls.extraAllow then
          shallowUpdate collected.1 s.configuration.parameters
        else collected.1)
      else .error (.missingStepParameter collected.2)

/-- `BaseStep._finalize_parameters`: keeps every configured parameter
whose key is a parameter of the entrypoint signature, then stores the
finalized legacy parameters under the parameter object's name when the
entrypoint declares one.  (Inputs annotated with pydantic `BaseModel`
subclasses would additionally be instantiated and re-serialized; the
plain data types of this model have no such inputs.) -/
def finalize_parameters (s : StepModel) : Except StepError Dict :=
  let params :=
    s.configuration.parameters.filter
      (fun kv => (signatureParamNames s).contains kv.1)
  match s.entrypointDef.params with
  | none => .ok params
  | some (pname, _) =>
      match finalize_legacy_parameters s with
      | .error e => .error e
      | .ok legacy => .ok (alistSet params pname (Value.vDict legacy))

/-- The parameter flow of invocation finalization
(`StepInvocation.finalize` → `BaseStep._finalize_configuration`):
`finalize` first applies the invocation's parameters through
`self.step.configure(parameters=self.parameters)` — whose `merge`
argument defaults to `True` — and `_finalize_configuration` later
computes `_finalize_parameters()` and re-applies it with
`merge=False`; the result is the parameters field of the finalized
configuration. -/
def invocation_finalize_parameters (s : StepModel) (invParams : Dict) :
    Except StepError Dict :=
  match configure_parameters s invParams true with
  | .error e => .error e
  | .ok s1 =>
      match finalize_parameters s1 with
      | .error e => .error e
      | .ok fp =>
          match configure_parameters s1 fp false with
          | .error e => .error e
          | .ok s2 => .ok s2.configuration.parameters

/-- `BaseStep._validate_inputs` walks the names of the entrypoint
signature and fails at the first one bound by no input artifact, no
configured parameter and no external artifact. -/
def validate_inputs_go (cfgParams : Dict)
    (inputArtifacts externalArtifacts : List String) :
    List String → Except StepError Unit
  | [] => .ok ()
  | k :: rest =>
      if inputArtifacts.contains k || alistHas cfgParams k ||
          externalArtifacts.contains k then
        validate_inputs_go cfgParams inputArtifacts externalArtifacts rest
      else .error (.missingInput k)

/-- `BaseStep._validate_inputs`: every parameter of the (context-free)
entrypoint signature must be bound by an input artifact, a configured
parameter, or an external artifact. -/
def validate_inputs (s : StepModel)
    (inputArtifacts externalArtifacts : List String) :
    Except StepError Unit :=
  validate_inputs_go s.configuration.parameters inputArtifacts
    externalArtifacts (signatureParamNames s)

/-- The binding condition of `BaseStep._validate_inputs` for one
signature parameter: `key in input_artifacts or key in
self.configuration.parameters or key in external_artifacts`. -/
def boundBy (cfg : Dict) (ia ea : List String) (k : String) : Prop :=
  k ∈ ia ∨ alistHas cfg k = true ∨ k ∈ ea

instance (cfg : Dict) (ia ea : List String) (k : String) :
    Decidable (boundBy cfg ia ea k) := by
  unfold boundBy
  infer_instance

/-- A parameter using variadic positional or keyword capture. -/
def isVariadic (p : FuncParam) : Bool :=
  p.kind == ParamKind.varPositional || p.kind == ParamKind.varKeyword

/-- A parameter annotated with a `BaseParameters` subclass. -/
def isParamsObject (p : FuncParam) : Bool :=
  match p.annotation with
  | some (.baseParameters _) => true
  | _ => false

/-- A parameter annotated with a `StepContext` subclass. -/
def isContextParam (p : FuncParam) : Bool :=
  match p.annotation with
  | some .stepContext => true
  | _ => false

/-- The typed inputs among a parameter list, in order. -/
def plainInputs (ps : List FuncParam) : List (String × DataType) :=
  ps.filterMap
    (fun p =>
      match p.annotation with
      | some (.plain t) => some (p.name, t)
      | _ => none)

/-- The names of the context-annotated parameters, in order. -/
def ctxNames (ps : List FuncParam) : List String :=
  ps.filterMap
    (fun p =>
      match p.annotation with
      | some .stepContext => some p.name
      | _ => none)

/-- The `BaseParameters`-annotated parameters, in order. -/
def parEntries (ps : List FuncParam) : List (String × LegacyParamsClass) :=
  ps.filterMap
    (fun p =>
      match p.annotation with
      | some (.baseParameters c) => some (p.name, c)
      | _ => none)

/-- An already-claimed slot, or else the first candidate. -/
def headOr {α : Type} (o : Option α) (l : List α) : Option α :=
  match o with
  | some v => some v
  | none => l.head?

/-- The failure conditions of `validate_entrypoint_function`: a variadic
parameter, a parameter without a type annotation, more than one
`BaseParameters` parameter, more than one `StepContext` parameter, or a
missing return annotation. -/
def badEntrypoint (f : EntrypointFunc) : Prop :=
  (∃ p ∈ f.params, isVariadic p = true) ∨
  (∃ p ∈ f.params, p.annotation.isNone = true) ∨
  f.params.countP isParamsObject > 1 ∨
  f.params.countP isContextParam > 1 ∨
  f.returnAnnotation.isNone = true

/-! ### Ordering-hint resolution (`StepInvocation`, C6)

An invocation graph is the `pipeline.steps` mapping reduced to what the
resolution reads: the invocation identifiers paired with the identity of
the step template object each invocation holds (`invocation.step is ...`
compares object identities, modelled as natural numbers).  `upstreamOf`
gives each template identity the set `step._upstream_steps` that
`BaseStep.after` accumulated (a set of template objects, despite the
`Set[str]` annotation in the source). -/

/-- `BaseStep.after`: adds a step object to the template's upstream set.
It is a plain set insertion — declaring an ordering hint never fails. -/
def step_after (upstream : List Nat) (t : Nat) : List Nat :=
  if upstream.contains t then upstream else upstream ++ [t]

/-- How many invocations of the graph hold the given template
(`{invocation for invocation in pipeline.steps.values() if
invocation.step is step}`). -/
def countInvocationsOf (pipeline : List (String × Nat)) (tid : Nat) : Nat :=
  (pipeline.filter (fun p => p.2 = tid)).length

/-- The loop of `StepInvocation._get_and_validate_step_upstream_steps`
over the template's declared upstream steps: a template with exactly one
invocation contributes that invocation's identifier, one with several
invocations is ambiguous, and one with none contributes nothing. -/
def collectUpstream (pipeline : List (String × Nat)) :
    List Nat → Except StepError (List String)
  | [] => .ok []
  | t :: rest =>
      if ((pipeline.filter (fun p => p.2 = t)).map (·.1)).length = 1 then
        (collectUpstream pipeline rest).map
          (fun l => (pipeline.filter (fun p => p.2 = t)).map (·.1) ++ l)
      else if ((pipeline.filter (fun p => p.2 = t)).map (·.1)).length > 1 then
        .error .ambiguousUpstream
      else collectUpstream pipeline rest

/-- `StepInvocation._get_and_validate_step_upstream_steps` for an
invocation holding template `tid`: when the template declares upstream
steps and is itself held by more than one invocation, resolution fails;
otherwise each declared upstream template is resolved to its unique
invocation identifier. -/
def get_and_validate_step_upstream_steps (pipeline : List (String × Nat))
    (upstreamOf : Nat → List Nat) (tid : Nat) :
    Except StepError (List String) :=
  if ¬ (upstreamOf tid).isEmpty ∧ countInvocationsOf pipeline tid > 1 then
    .error .ambiguousUpstream
  else
    collectUpstream pipeline (upstreamOf tid)

/-! ### External artifact upload (`ExternalArtifact.do_something`, C3) -/

/-- The externally observable calls `ExternalArtifact.do_something`
makes against the client, the filesystem and the store. -/
inductive CallKind
  | getArtifact
  | fileExists
  | makeDirs
  | materializerSave
  | createArtifact
deriving DecidableEq, Repr

/-- Calls against the metadata/service store (registry). -/
def isRegistryCall : CallKind → Bool
  | .getArtifact => true
  | .createArtifact => true
  | _ => false

/-- The store-write operations: persisting the value through the
materializer and creating the artifact record. -/
def isStoreWrite : CallKind → Bool
  | .materializerSave => true
  | .createArtifact => true
  | _ => false

/-- `ExternalArtifact` state: a raw value or a persisted identifier
(the constructor requires exactly one of the two), plus the optional
explicit materializer override. -/
structure ExternalArtifactModel where
  value : Option Value
  id : Option Nat
  materializer : Option Source := none
deriving Repr

/-- The runtime type of a value (`type(self._value)`). -/
def valueType : Value → DataType
  | .vInt _ => .tNamed "int"
  | .vStr _ => .tNamed "str"
  | .vBool _ => .tNamed "bool"
  | .vDict _ => .tNamed "dict"

/-- The world `do_something` interacts with: the active stack's artifact
store, the artifact registry (artifact id → owning artifact-store id),
the filesystem, a counter standing for `uuid4` / fresh record ids, and
the global materializer registry used for type-based lookup. -/
structure ClientEnv where
  activeStoreId : Nat
  storePath : String
  artifactRegistry : List (Nat × Nat)
  existingUris : List String
  nextUuid : Nat
  typeMaterializers : List (DataType × Source)
deriving Repr

/-- `ExternalArtifact._get_materializer`: the explicit override wins,
otherwise the value's type is looked up in the materializer registry. -/
def get_materializer (env : ClientEnv) (art : ExternalArtifactModel) :
    Except StepError Source :=
  match art.materializer with
  | some m => .ok m
  | none =>
      match art.value with
      | none => .error .invalidExternalArtifact
      | some v =>
          match registryLookup env.typeMaterializers (valueType v) with
          | some src => .ok src
          | none => .error (.externalMaterializerNotFound (valueType v))

/-- The fresh location `do_something` allocates for an upload:
`os.path.join(store.path, "external_artifacts", f"external_{uuid4()}")`,
with the fresh uuid modelled by the environment's counter. -/
def externalArtifactUri (env : ClientEnv) : String :=
  env.storePath ++ "/external_artifacts/external_" ++ toString env.nextUuid

/-- The calls the upload path of `do_something` makes, in order:
`fileio.exists`, `fileio.makedirs`, `materializer.save`,
`zen_store.create_artifact`. -/
def uploadTrace : List CallKind :=
  [.fileExists, .makeDirs, .materializerSave, .createArtifact]

/-- `ExternalArtifact.do_something`: with an identifier already held, the
artifact record is fetched (`Client().get_artifact`) and its
artifact-store scope compared against the active stack's; with a raw
value, the materializer is resolved, a fresh location is checked and
created, the value saved, and the artifact record registered — after
which the reference keeps the returned identifier ("to avoid duplicate
uploads").  The result carries the returned identifier, the updated
reference, the updated world, and the trace of external calls. -/
def do_something (env : ClientEnv) (art : ExternalArtifactModel) :
    Except StepError
      (Nat × ExternalArtifactModel × ClientEnv × List CallKind) :=
  match art.id with
  | some i =>
      match alistLookup env.artifactRegistry i with
      | none => .error .artifactStoreMismatch
      | some storeId =>
          if storeId ≠ env.activeStoreId then .error .artifactStoreMismatch
          else .ok (i, art, env, [CallKind.getArtifact])
  | none =>
      match art.value with
      | none => .error .invalidExternalArtifact
      | some _ =>
          match get_materializer env art with
          | .error e => .error e
          | .ok _mat =>
              if env.existingUris.contains (externalArtifactUri env) then
                .error .uriExists
              else
                .ok (env.nextUuid,
                  { art with id := some env.nextUuid },
                  { env with
                      artifactRegistry :=
                        (env.nextUuid, env.activeStoreId) ::
                          env.artifactRegistry
                      existingUris :=
                        externalArtifactUri env :: env.existingUris
                      nextUuid := env.nextUuid + 1 },
                  uploadTrace)

/-! ### Concrete fixtures used by counterexamples and witnesses -/

/-- A two-input step template whose base configuration already holds a
value for parameter `a`. -/
def c2Step : StepModel :=
  { sourceCode := "def my_step(a: int, b: int) -> int: ..."
    entrypointDef :=
      { inputs := [("a", .tNamed "int"), ("b", .tNamed "int")]
        outputs := [("output", .simple (.tNamed "int"))]
        context := none
        params := none }
    configuration := { name := "my_step", parameters := [("a", .vInt 1)] } }

/-- A world with one artifact store (id 7), an empty registry, and an
`int` materializer registered. -/
def c3Env0 : ClientEnv :=
  { activeStoreId := 7
    storePath := "s3://bucket"
    artifactRegistry := []
    existingUris := []
    nextUuid := 0
    typeMaterializers :=
      [(.tNamed "int", "zenml.materializers.BuiltInMaterializer")] }

/-- An external artifact constructed from a raw value. -/
def c3Art0 : ExternalArtifactModel := { value := some (.vInt 5), id := none }

/-- `c3Art0` after its first finalization: it keeps the identifier the
store returned. -/
def c3Art1 : ExternalArtifactModel :=
  { value := some (.vInt 5), id := some 0 }

/-- The world after the first finalization of `c3Art0`: one artifact
record and one stored blob exist. -/
def c3Env1 : ClientEnv :=
  { c3Env0 with
      artifactRegistry := [(0, 7)]
      existingUris := ["s3://bucket/external_artifacts/external_0"]
      nextUuid := 1 }

/-- A graph with one invocation of template 0 and two invocations of
template 1. -/
def c6Pipeline : List (String × Nat) := [("a", 0), ("b", 1), ("c", 1)]

/-- Template 0 declared `after(template 1)`; no other hints. -/
def c6UpstreamOf : Nat → List Nat := fun t => if t = 0 then [1] else []

/-! ### C1 -/

/-- C1: the claim states that the upstream set passed to the graph
builder contains every explicit upstream identifier supplied via `after`,
"whether `after` is a single identifier or a sequence of identifiers".
The code violates the sequence half: `BaseStep.__call__` evaluates
`upstream_steps.union(after)` whose result is discarded, so with
`after=["dep1", "dep2"]` and one in-graph input owned by invocation
`"prev"`, the upstream set passed on is `{"prev"}` — the sequence entries
are dropped — while a single string `after="dep1"` is added correctly. -/
theorem C1_after_sequence_dropped :
    compute_upstream_steps ["prev"] (.seq ["dep1", "dep2"]) = {"prev"} ∧
    "dep1" ∉ compute_upstream_steps ["prev"] (.seq ["dep1", "dep2"]) ∧
    compute_upstream_steps ["prev"] (.single "dep1") = {"dep1", "prev"} :=
  ⟨by decide, by decide, by decide⟩

/-! ### C10 -/

/-- C10: when the entrypoint declares a `StepContext` parameter and the
caller passes no explicit `enable_cache`, `BaseStep.__init__` creates the
configuration with caching explicitly disabled (`enable_cache = False`);
without a context parameter and without an explicit flag,
`enable_cache` stays unset. -/
theorem C10_context_disables_cache (name : String) (m v : Option Bool)
    (d : EntrypointFunctionDefinition) :
    (d.context.isSome = true →
      (init_configuration name none m v d.context.isSome).enable_cache =
        some false) ∧
    (d.context = none →
      (init_configuration name none m v d.context.isSome).enable_cache =
        none) := by
  constructor
  · intro h
    simp [init_configuration, init_enable_cache, h]
  · intro h
    simp [init_configuration, init_enable_cache, h]

/-! ### C9 -/

/-- C9: applying a configuration update with merging disabled is
idempotent — `update_model (update_model base u false) u false` equals
`update_model base u false` — because every set field of the update fully
replaces the corresponding field of the base. -/
theorem C9_override_merge_idempotent (base : PartialStepConfiguration)
    (u : StepConfigurationUpdate) :
    update_model (update_model base u false) u false =
      update_model base u false := by
  have hs : ∀ {α : Type} (x b : Option α), setOr x (setOr x b) = setOr x b :=
    fun x _ => by cases x <;> rfl
  simp only [update_model]
  congr 1
  · exact hs ..
  · exact hs ..
  · exact hs ..
  · exact hs ..
  · exact hs ..
  · cases u.parameters <;> rfl
  · cases u.settings <;> rfl
  · cases u.outputs <;> rfl
  · cases u.extra <;> rfl
  · exact hs ..
  · exact hs ..

/-! ### C4 -/

/-- C4: the fingerprint mapping of `BaseStep.caching_parameters` always
holds the step-source hash under the fixed source key; for every output
with a non-empty resolved materializer source list it holds, under
`{name}_materializer_source`, the hash of the concatenation of the
per-materializer content hashes in resolution order; and it is
determined by the step's source text and configured outputs alone, so
two steps agreeing on both yield identical mappings. -/
theorem C4_caching_fingerprint (hashSrc md5 : String → String)
    (matHash : Source → String) (s s2 : StepModel) :
    (alistLookup (caching_parameters hashSrc md5 matHash s)
        STEP_SOURCE_PARAMETER_NAME = some (hashSrc s.sourceCode)) ∧
    (∀ name cfg srcs, (name, cfg) ∈ s.configuration.outputs →
      cfg.materializer_source = some srcs → srcs ≠ [] →
      (name ++ "_materializer_source", md5 (String.join (srcs.map matHash)))
        ∈ caching_parameters hashSrc md5 matHash s) ∧
    (s.sourceCode = s2.sourceCode →
      s.configuration.outputs = s2.configuration.outputs →
      caching_parameters hashSrc md5 matHash s =
        caching_parameters hashSrc md5 matHash s2) := by
  refine ⟨?_, ?_, ?_⟩
  · simp [caching_parameters, alistLookup, List.find?]
  · intro name cfg srcs hmem hsrc hne
    unfold caching_parameters
    refine List.mem_cons_of_mem _ (List.mem_filterMap.mpr ⟨(name, cfg), hmem, ?_⟩)
    have h0 : srcs.isEmpty = false := by
      cases srcs with
      | nil => exact absurd rfl hne
      | cons a l => rfl
    simp [hsrc, h0]
  · intro h1 h2
    unfold caching_parameters
    rw [h1, h2]

/-! ### C5 -/

/-- When every type is registered, the resolution loop returns the looked
up sources in order. -/
theorem resolveOutputTypes_ok (reg : List (DataType × Source)) (nm : String)
    (ts : List DataType) (h : ∀ t ∈ ts, (registryLookup reg t).isSome) :
    resolveOutputTypes reg nm ts =
      .ok (ts.map fun t => (registryLookup reg t).getD "") := by
  induction ts with
  | nil => rfl
  | cons t rest ih =>
      obtain ⟨src, hsrc⟩ :=
        Option.isSome_iff_exists.mp (h t (List.mem_cons_self t rest))
      have hrest := ih (fun u hu => h u (List.mem_cons_of_mem t hu))
      simp [resolveOutputTypes, hsrc, hrest, Except.map]

/-- When some type is unregistered, the loop fails with an error naming
an unregistered type. -/
theorem resolveOutputTypes_error (reg : List (DataType × Source))
    (nm : String) (ts : List DataType)
    (h : ∃ t ∈ ts, registryLookup reg t = none) :
    ∃ u ∈ ts, registryLookup reg u = none ∧
      resolveOutputTypes reg nm ts =
        .error (.materializerNotFound nm u) := by
  induction ts with
  | nil => simp at h
  | cons t rest ih =>
      cases hl : registryLookup reg t with
      | none =>
          exact ⟨t, List.mem_cons_self t rest, hl, by
            simp [resolveOutputTypes, hl, Except.map]⟩
      | some src =>
          obtain ⟨t', ht', hnone⟩ := h
          have hrest : ∃ u ∈ rest, registryLookup reg u = none := by
            rcases List.mem_cons.mp ht' with heq | hmem
            · subst heq; rw [hl] at hnone; exact absurd hnone (by simp)
            · exact ⟨t', hmem, hnone⟩
          obtain ⟨u, hu, hunone, herr⟩ := ih hrest
          exact ⟨u, List.mem_cons_of_mem t hu, hunone, by
            simp [resolveOutputTypes, hl, herr, Except.map]⟩

/-- C5: for a union-annotated output with no explicit materializer
sources, finalization resolves one materializer per union member in the
declared member order (an explicit `None` member standing for
`type(None)`) when every member is registered, and fails with an error
naming an unregistered member when one is not. -/
theorem C5_union_materializer_resolution (reg : List (DataType × Source))
    (name : String) (ms : List (Option DataType)) :
    ((∀ t ∈ outputTypes (.union ms), (registryLookup reg t).isSome) →
      finalize_output_materializer_source reg name (.union ms) none =
        .ok (some ((outputTypes (.union ms)).map
          fun t => (registryLookup reg t).getD ""))) ∧
    ((∃ t ∈ outputTypes (.union ms), registryLookup reg t = none) →
      ∃ u ∈ outputTypes (.union ms), registryLookup reg u = none ∧
        finalize_output_materializer_source reg name (.union ms) none =
          .error (.materializerNotFound name u)) := by
  constructor
  · intro h
    have := resolveOutputTypes_ok reg name (outputTypes (.union ms)) h
    simp [finalize_output_materializer_source, this, Except.map]
  · intro h
    obtain ⟨u, hu, hunone, herr⟩ :=
      resolveOutputTypes_error reg name (outputTypes (.union ms)) h
    exact ⟨u, hu, hunone, by
      simp [finalize_output_materializer_source, herr, Except.map]⟩

/-! ### C8 -/

/-- The Bool guard of the walk agrees with `boundBy`. -/
theorem validate_inputs_cond_eq (cfg : Dict) (ia ea : List String)
    (k : String) :
    (ia.contains k || alistHas cfg k || ea.contains k) = true ↔
      boundBy cfg ia ea k := by
  simp [boundBy, List.elem_iff, or_assoc]

/-- The input-validation walk succeeds exactly when every listed key is
bound by at least one of the three sources. -/
theorem validate_inputs_go_ok_iff (cfg : Dict) (ia ea : List String)
    (ks : List String) :
    validate_inputs_go cfg ia ea ks = .ok () ↔
      ∀ k ∈ ks, boundBy cfg ia ea k := by
  induction ks with
  | nil => simp [validate_inputs_go]
  | cons k rest ih =>
      unfold validate_inputs_go
      by_cases hb : boundBy cfg ia ea k
      · rw [if_pos ((validate_inputs_cond_eq cfg ia ea k).mpr hb), ih]
        simp [hb]
      · rw [if_neg (fun hc => hb ((validate_inputs_cond_eq cfg ia ea k).mp hc))]
        simp [hb]

/-- When some listed key is unbound, the walk fails with a missing-input
error naming an unbound key. -/
theorem validate_inputs_go_error (cfg : Dict) (ia ea : List String)
    (ks : List String) (h : ∃ k ∈ ks, ¬ boundBy cfg ia ea k) :
    ∃ k, validate_inputs_go cfg ia ea ks = .error (.missingInput k) ∧
      k ∈ ks ∧ ¬ boundBy cfg ia ea k := by
  induction ks with
  | nil => simp at h
  | cons k rest ih =>
      by_cases hb : boundBy cfg ia ea k
      · have hrest : ∃ k' ∈ rest, ¬ boundBy cfg ia ea k' := by
          obtain ⟨k', hk', hnb⟩ := h
          rcases List.mem_cons.mp hk' with heq | hmem
          · subst heq; exact absurd hb hnb
          · exact ⟨k', hmem, hnb⟩
        obtain ⟨k', herr, hmem, hnb⟩ := ih hrest
        refine ⟨k', ?_, List.mem_cons_of_mem k hmem, hnb⟩
        unfold validate_inputs_go
        rw [if_pos ((validate_inputs_cond_eq cfg ia ea k).mpr hb)]
        exact herr
      · refine ⟨k, ?_, List.mem_cons_self k rest, hb⟩
        unfold validate_inputs_go
        rw [if_neg (fun hc => hb ((validate_inputs_cond_eq cfg ia ea k).mp hc))]

/-- C8: `BaseStep._validate_inputs` succeeds exactly when every parameter
of the entrypoint signature is bound by an input artifact, a configured
parameter or an external artifact, and fails with a missing-input error
naming an unbound parameter when one exists. -/
theorem C8_missing_input_validation (s : StepModel)
    (ia ea : List String) :
    (validate_inputs s ia ea = .ok () ↔
      ∀ k ∈ signatureParamNames s,
        boundBy s.configuration.parameters ia ea k) ∧
    ((∃ k ∈ signatureParamNames s,
        ¬ boundBy s.configuration.parameters ia ea k) →
      ∃ k, validate_inputs s ia ea = .error (.missingInput k) ∧
        k ∈ signatureParamNames s ∧
        ¬ boundBy s.configuration.parameters ia ea k) := by
  exact ⟨validate_inputs_go_ok_iff s.configuration.parameters ia ea
      (signatureParamNames s),
    validate_inputs_go_error s.configuration.parameters ia ea
      (signatureParamNames s)⟩

/-! ### C2 -/

/-- `BaseStep._validate_function_parameters` accepts a parameter dict in
which every key is either a typed entrypoint input or covered by a
declared `BaseParameters` parameter. -/
theorem validate_function_parameters_ok (s : StepModel) (ps : Dict)
    (h : ∀ kv ∈ ps, s.entrypointDef.inputs.any (fun i => i.1 = kv.1) = true ∨
      s.entrypointDef.params.isSome = true) :
    validate_function_parameters s ps = .ok () := by
  induction ps with
  | nil => rfl
  | cons kv rest ih =>
      obtain ⟨k, v⟩ := kv
      have hrest := ih (fun kv' hm => h kv' (List.mem_cons_of_mem _ hm))
      unfold validate_function_parameters
      rcases h (k, v) (List.mem_cons_self _ _) with h1 | h2
      · rw [if_pos h1]
        exact hrest
      · by_cases h1 : s.entrypointDef.inputs.any (fun i => i.1 = k) = true
        · rw [if_pos h1]
          exact hrest
        · rw [if_neg h1, if_pos h2]
          exact hrest

/-- For a step without a legacy `BaseParameters` parameter, the
signature parameter names are exactly the typed input names. -/
theorem sig_contains_any (s : StepModel)
    (hpar : s.entrypointDef.params = none) (k : String)
    (h : (signatureParamNames s).contains k = true) :
    s.entrypointDef.inputs.any (fun i => i.1 = k) = true := by
  unfold signatureParamNames at h
  rw [hpar] at h
  simp only [List.append_nil, List.elem_iff, List.mem_map] at h
  obtain ⟨i, hi, hik⟩ := h
  simp only [List.any_eq_true, decide_eq_true_eq]
  exact ⟨i, hi, hik⟩

/-- C2 (amended): for a step without a legacy parameter object whose
invocation parameters all name typed inputs, the finalized parameters
field is the key-by-key merge of the template's configured parameters
with the invocation's parameters (invocation values winning on
collision), filtered to the signature parameter names — not a full
replacement: template keys absent from the invocation survive.  The
merge is key-by-key because `StepInvocation.finalize` calls
`configure(parameters=...)` whose `merge` argument defaults to `True`. -/
theorem C2_parameters_merged_key_by_key (s : StepModel) (p : Dict)
    (hpar : s.entrypointDef.params = none)
    (hkeys : ∀ kv ∈ p,
      s.entrypointDef.inputs.any (fun i => i.1 = kv.1) = true) :
    invocation_finalize_parameters s p =
      .ok ((recursiveUpdate s.configuration.parameters p).filter
        (fun kv => (signatureParamNames s).contains kv.1)) := by
  have h1 : validate_function_parameters s p = .ok () :=
    validate_function_parameters_ok s p (fun kv hm => Or.inl (hkeys kv hm))
  have h2 : validate_function_parameters
      { s with configuration :=
          update_model s.configuration { parameters := some p } true }
      ((recursiveUpdate s.configuration.parameters p).filter
        (fun kv => (signatureParamNames s).contains kv.1)) = .ok () := by
    refine validate_function_parameters_ok _ _ (fun kv hm => Or.inl ?_)
    have hc := List.of_mem_filter hm
    exact sig_contains_any s hpar kv.1 hc
  have e1 : signatureParamNames
      { s with configuration :=
          update_model s.configuration { parameters := some p } true } =
      signatureParamNames s := rfl
  have e2 : (update_model s.configuration
      { parameters := some p } true).parameters =
      recursiveUpdate s.configuration.parameters p := rfl
  unfold invocation_finalize_parameters configure_parameters
  rw [h1]
  dsimp only
  unfold finalize_parameters
  rw [hpar]
  dsimp only
  rw [e1, e2, h2]
  rfl

/-- C2 (counterexample to the claim as stated): the template `c2Step`
has `{"a": 1}` configured and its invocation supplies only `{"b": 2}`;
the finalized parameters are `{"a": 1, "b": 2}` — parameter `a`, present
in the template's base configuration and absent from the invocation's
parameters, survives into the finalized configuration, so the
`parameters` field is not a full replacement by the invocation-supplied
parameters. -/
theorem C2_full_replacement_counterexample :
    invocation_finalize_parameters c2Step [("b", Value.vInt 2)] =
      .ok [("a", Value.vInt 1), ("b", Value.vInt 2)] ∧
    invocation_finalize_parameters c2Step [("b", Value.vInt 2)] ≠
      .ok [("b", Value.vInt 2)] := by
  constructor
  · rfl
  · intro h
    have h0 : invocation_finalize_parameters c2Step [("b", Value.vInt 2)] =
        .ok [("a", Value.vInt 1), ("b", Value.vInt 2)] := rfl
    rw [h0] at h
    simp at h

/-- Witness for C2 at the concrete step `c2Step` and invocation
parameters `{"b": 2}`. -/
theorem C2_merge_witness :
    invocation_finalize_parameters c2Step [("b", Value.vInt 2)] =
      .ok ((recursiveUpdate c2Step.configuration.parameters
          [("b", Value.vInt 2)]).filter
        (fun kv => (signatureParamNames c2Step).contains kv.1)) :=
  C2_parameters_merged_key_by_key c2Step [("b", Value.vInt 2)] rfl
    (by decide)

/-! ### C3 -/

/-- C3 (amended): a first finalization from a raw value performs the
upload trace — one materializer save and one artifact-record creation —
and captures the returned identifier; the second finalization returns
that identifier and performs no store write and no state change, but it
does make one registry read (`Client().get_artifact`) to re-verify the
artifact-store scope. -/
theorem C3_upload_idempotent_amended (env : ClientEnv)
    (art : ExternalArtifactModel) (i : Nat)
    (art' : ExternalArtifactModel) (env' : ClientEnv) (tr : List CallKind)
    (hid : art.id = none)
    (h : do_something env art = .ok (i, art', env', tr)) :
    art'.id = some i ∧ tr = uploadTrace ∧
    do_something env' art' = .ok (i, art', env', [CallKind.getArtifact]) ∧
    (∀ c ∈ [CallKind.getArtifact], isStoreWrite c = false) := by
  unfold do_something at h
  rw [hid] at h
  cases hv : art.value with
  | none =>
      rw [hv] at h
      exact absurd h (by simp)
  | some v =>
      rw [hv] at h
      cases hm : get_materializer env art with
      | error e =>
          rw [hm] at h
          exact absurd h (by simp)
      | ok m =>
          rw [hm] at h
          by_cases hu :
              env.existingUris.contains (externalArtifactUri env) = true
          · rw [if_pos hu] at h
            exact absurd h (by simp)
          · rw [if_neg hu] at h
            simp only [Except.ok.injEq, Prod.mk.injEq] at h
            obtain ⟨h1, h2, h3, h4⟩ := h
            subst h1
            subst h2
            subst h3
            subst h4
            refine ⟨rfl, rfl, ?_, by decide⟩
            simp [do_something, alistLookup, List.find?]

/-- Witness for C3 at the concrete world `c3Env0` and the raw-value
external artifact `c3Art0`. -/
theorem C3_amended_witness :
    c3Art1.id = some 0 ∧ uploadTrace = uploadTrace ∧
    do_something c3Env1 c3Art1 =
      .ok (0, c3Art1, c3Env1, [CallKind.getArtifact]) ∧
    (∀ c ∈ [CallKind.getArtifact], isStoreWrite c = false) :=
  C3_upload_idempotent_amended c3Env0 c3Art0 0 c3Art1 c3Env1 uploadTrace
    rfl rfl

/-- C3 (counterexample to the claim as stated): after the first
finalization of `c3Art0` the second call returns the captured
identifier, but its call trace is `[getArtifact]` — a metadata-store
(registry) read — not empty as "without making any additional store or
registry calls" requires. -/
theorem C3_second_finalize_registry_call :
    do_something c3Env0 c3Art0 = .ok (0, c3Art1, c3Env1, uploadTrace) ∧
    do_something c3Env1 c3Art1 =
      .ok (0, c3Art1, c3Env1, [CallKind.getArtifact]) ∧
    isRegistryCall CallKind.getArtifact = true := ⟨rfl, rfl, rfl⟩

/-! ### C6 -/

/-- The upstream-collection loop succeeds whenever every declared
upstream template has at most one invocation in the graph. -/
theorem collectUpstream_ok (pipeline : List (String × Nat)) (ts : List Nat)
    (h : ∀ t ∈ ts, countInvocationsOf pipeline t ≤ 1) :
    ∃ ids, collectUpstream pipeline ts = .ok ids := by
  induction ts with
  | nil => exact ⟨[], rfl⟩
  | cons t rest ih =>
      obtain ⟨ids, hids⟩ := ih (fun u hu => h u (List.mem_cons_of_mem _ hu))
      have hc := h t (List.mem_cons_self _ _)
      have hlen : ((pipeline.filter (fun p => p.2 = t)).map (·.1)).length =
          countInvocationsOf pipeline t := by
        simp [countInvocationsOf]
      rcases Nat.le_one_iff_eq_zero_or_eq_one.mp hc with h0 | h1
      · refine ⟨ids, ?_⟩
        unfold collectUpstream
        rw [if_neg (by omega : ¬ ((pipeline.filter
            (fun p => p.2 = t)).map (·.1)).length = 1),
          if_neg (by omega : ¬ ((pipeline.filter
            (fun p => p.2 = t)).map (·.1)).length > 1)]
        exact hids
      · refine ⟨(pipeline.filter (fun p => p.2 = t)).map (·.1) ++ ids, ?_⟩
        unfold collectUpstream
        rw [if_pos (by omega : ((pipeline.filter
            (fun p => p.2 = t)).map (·.1)).length = 1)]
        rw [hids]
        rfl

/-- C6 (amended): when a template carrying an ordering hint is held by
more than one invocation, upstream resolution fails with the
ambiguous-ordering error; when the template is held by at most one
invocation and every template its hint names is held by at most one
invocation, resolution succeeds; and declaring the hint itself
(`BaseStep.after`) is a total set insertion that always records the
hinted template. -/
theorem C6_ordering_hint_resolution (pipeline : List (String × Nat))
    (upstreamOf : Nat → List Nat) (tid : Nat) :
    (((upstreamOf tid).isEmpty = false ∧
        countInvocationsOf pipeline tid > 1) →
      get_and_validate_step_upstream_steps pipeline upstreamOf tid =
        .error .ambiguousUpstream) ∧
    ((countInvocationsOf pipeline tid ≤ 1 ∧
        ∀ t ∈ upstreamOf tid, countInvocationsOf pipeline t ≤ 1) →
      ∃ ids, get_and_validate_step_upstream_steps pipeline upstreamOf tid =
        .ok ids) ∧
    (∀ up t, (step_after up t).contains t = true) := by
  refine ⟨?_, ?_, ?_⟩
  · intro ⟨h1, h2⟩
    unfold get_and_validate_step_upstream_steps
    rw [if_pos ⟨by simp [h1], h2⟩]
  · intro ⟨h1, h2⟩
    unfold get_and_validate_step_upstream_steps
    rw [if_neg (fun hcon => absurd hcon.2 (by omega))]
    exact collectUpstream_ok pipeline (upstreamOf tid) h2
  · intro up t
    unfold step_after
    by_cases hc : up.contains t = true
    · rw [if_pos hc]
      exact hc
    · rw [if_neg hc]
      simp [List.elem_iff]

/-- C6 (counterexample to the claim as stated): in `c6Pipeline` the
hinted template 0 appears in exactly one invocation, yet resolution
fails, because the template its hint names (template 1) appears in two
invocations. -/
theorem C6_single_invocation_counterexample :
    countInvocationsOf c6Pipeline 0 = 1 ∧
    get_and_validate_step_upstream_steps c6Pipeline c6UpstreamOf 0 =
      .error .ambiguousUpstream := ⟨rfl, rfl⟩


/-! ### C7 -/

/-- Defining equation of the parameter loop on the empty list. -/
theorem validateParams_nil (fname : String) (inputs : List (String × DataType))
    (ctx : Option String) (par : Option (String × LegacyParamsClass)) :
    validateParams fname [] inputs ctx par = .ok (inputs, ctx, par) := rfl

/-- Defining equation of the parameter loop on a non-empty list. -/
theorem validateParams_cons (fname : String) (p : FuncParam)
    (rest : List FuncParam) (inputs : List (String × DataType))
    (ctx : Option String) (par : Option (String × LegacyParamsClass)) :
    validateParams fname (p :: rest) inputs ctx par =
      (if p.kind = ParamKind.varPositional ∨ p.kind = ParamKind.varKeyword then
        .error (.variadicParams fname)
      else
        match p.annotation with
        | none => .error (.annotationAbsent p.name)
        | some (.baseParameters cls) =>
            match par with
            | some prev => .error (.multipleParams prev.1 p.name)
            | none => validateParams fname rest inputs ctx (some (p.name, cls))
        | some .stepContext =>
            match ctx with
            | some prev => .error (.multipleContext prev p.name)
            | none => validateParams fname rest inputs (some p.name) par
        | some (.plain t) =>
            validateParams fname rest (inputs ++ [(p.name, t)]) ctx par) := rfl

/-- The parameter loop succeeds and returns the accumulated typed
inputs, context and parameter object when no parameter is variadic or
unannotated and the claimed slots stay within one parameter object and
one context. -/
theorem validateParams_ok (fname : String) (ps : List FuncParam)
    (inputs : List (String × DataType)) (ctx : Option String)
    (par : Option (String × LegacyParamsClass))
    (hvar : ∀ p ∈ ps, isVariadic p = false)
    (hann : ∀ p ∈ ps, p.annotation.isSome = true)
    (hpar : ps.countP isParamsObject + (if par.isSome then 1 else 0) ≤ 1)
    (hctx : ps.countP isContextParam + (if ctx.isSome then 1 else 0) ≤ 1) :
    validateParams fname ps inputs ctx par =
      .ok (inputs ++ plainInputs ps, headOr ctx (ctxNames ps),
        headOr par (parEntries ps)) := by
  induction ps generalizing inputs ctx par with
  | nil =>
      cases ctx <;> cases par <;>
        simp [validateParams, plainInputs, ctxNames, parEntries, headOr]
  | cons p rest ih =>
      have hv := hvar p (List.mem_cons_self _ _)
      have ha := hann p (List.mem_cons_self _ _)
      have hnv : ¬(p.kind = ParamKind.varPositional ∨
          p.kind = ParamKind.varKeyword) := by
        simpa [isVariadic] using hv
      rw [validateParams_cons, if_neg hnv]
      cases hpa : p.annotation with
      | none => rw [hpa] at ha; simp at ha
      | some a =>
          cases a with
          | baseParameters cls =>
              have hcount : (p :: rest).countP isParamsObject =
                  rest.countP isParamsObject + 1 := by
                simp [List.countP_cons, isParamsObject, hpa]
              cases par with
              | some q =>
                  exfalso
                  rw [hcount,
                    show (if (some q).isSome = true then 1 else 0) = 1
                      from rfl] at hpar
                  omega
              | none =>
                  dsimp only
                  rw [ih _ _ (some (p.name, cls))
                    (fun q hq => hvar q (List.mem_cons_of_mem _ hq))
                    (fun q hq => hann q (List.mem_cons_of_mem _ hq))
                    (by
                      rw [hcount,
                        show (if (none : Option (String ×
                            LegacyParamsClass)).isSome = true then 1 else 0)
                          = 0 from rfl] at hpar
                      rw [show (if (some (p.name, cls)).isSome = true
                          then 1 else 0) = 1 from rfl]
                      omega)
                    (by
                      have hcc : (p :: rest).countP isContextParam =
                          rest.countP isContextParam := by
                        simp [List.countP_cons, isContextParam, hpa]
                      rw [hcc] at hctx
                      exact hctx)]
                  simp [plainInputs, ctxNames, parEntries, headOr, hpa]
          | stepContext =>
              have hcount : (p :: rest).countP isContextParam =
                  rest.countP isContextParam + 1 := by
                simp [List.countP_cons, isContextParam, hpa]
              cases ctx with
              | some q =>
                  exfalso
                  rw [hcount,
                    show (if (some q).isSome = true then 1 else 0) = 1
                      from rfl] at hctx
                  omega
              | none =>
                  dsimp only
                  rw [ih _ (some p.name) _
                    (fun q hq => hvar q (List.mem_cons_of_mem _ hq))
                    (fun q hq => hann q (List.mem_cons_of_mem _ hq))
                    (by
                      have hpp : (p :: rest).countP isParamsObject =
                          rest.countP isParamsObject := by
                        simp [List.countP_cons, isParamsObject, hpa]
                      rw [hpp] at hpar
                      exact hpar)
                    (by
                      rw [hcount,
                        show (if (none : Option String).isSome = true
                            then 1 else 0) = 0 from rfl] at hctx
                      rw [show (if (some p.name).isSome = true
                          then 1 else 0) = 1 from rfl]
                      omega)]
                  simp [plainInputs, ctxNames, parEntries, headOr, hpa]
          | plain t =>
              dsimp only
              rw [ih _ _ _
                (fun q hq => hvar q (List.mem_cons_of_mem _ hq))
                (fun q hq => hann q (List.mem_cons_of_mem _ hq))
                (by
                  have hpp : (p :: rest).countP isParamsObject =
                      rest.countP isParamsObject := by
                    simp [List.countP_cons, isParamsObject, hpa]
                  rw [hpp] at hpar
                  exact hpar)
                (by
                  have hcc : (p :: rest).countP isContextParam =
                      rest.countP isContextParam := by
                    simp [List.countP_cons, isContextParam, hpa]
                  rw [hcc] at hctx
                  exact hctx)]
              simp [plainInputs, ctxNames, parEntries, headOr, hpa]

/-- The parameter loop fails when some parameter is variadic or
unannotated, or the parameter-object or context slots are claimed more
than once in total. -/
theorem validateParams_error (fname : String) (ps : List FuncParam)
    (inputs : List (String × DataType)) (ctx : Option String)
    (par : Option (String × LegacyParamsClass))
    (h : (∃ p ∈ ps, isVariadic p = true) ∨
      (∃ p ∈ ps, p.annotation.isNone = true) ∨
      ps.countP isParamsObject + (if par.isSome then 1 else 0) > 1 ∨
      ps.countP isContextParam + (if ctx.isSome then 1 else 0) > 1) :
    ∃ e, validateParams fname ps inputs ctx par = .error e := by
  induction ps generalizing inputs ctx par with
  | nil =>
      exfalso
      rcases h with ⟨p, hp, _⟩ | ⟨p, hp, _⟩ | hgt | hgt
      · exact List.not_mem_nil p hp
      · exact List.not_mem_nil p hp
      · cases par <;> simp [List.countP_nil] at hgt
      · cases ctx <;> simp [List.countP_nil] at hgt
  | cons p rest ih =>
      rw [validateParams_cons]
      by_cases hv : isVariadic p = true
      · have hkv : p.kind = ParamKind.varPositional ∨
            p.kind = ParamKind.varKeyword := by
          simpa [isVariadic] using hv
        rw [if_pos hkv]
        exact ⟨_, rfl⟩
      · have hnv : ¬(p.kind = ParamKind.varPositional ∨
            p.kind = ParamKind.varKeyword) := by
          simpa [isVariadic] using hv
        rw [if_neg hnv]
        cases hpa : p.annotation with
        | none => exact ⟨_, rfl⟩
        | some a =>
            have htail :
                (∃ q ∈ rest, isVariadic q = true) ∨
                (∃ q ∈ rest, q.annotation.isNone = true) ∨
                (p :: rest).countP isParamsObject +
                  (if par.isSome then 1 else 0) > 1 ∨
                (p :: rest).countP isContextParam +
                  (if ctx.isSome then 1 else 0) > 1 := by
              rcases h with ⟨q, hq, hqv⟩ | ⟨q, hq, hqa⟩ | hgt | hgt
              · rcases List.mem_cons.mp hq with heq | hmem
                · subst heq; exact absurd hqv hv
                · exact Or.inl ⟨q, hmem, hqv⟩
              · rcases List.mem_cons.mp hq with heq | hmem
                · subst heq; rw [hpa] at hqa; simp at hqa
                · exact Or.inr (Or.inl ⟨q, hmem, hqa⟩)
              · exact Or.inr (Or.inr (Or.inl hgt))
              · exact Or.inr (Or.inr (Or.inr hgt))
            cases a with
            | baseParameters cls =>
                have hcount : (p :: rest).countP isParamsObject =
                    rest.countP isParamsObject + 1 := by
                  simp [List.countP_cons, isParamsObject, hpa]
                have hcc : (p :: rest).countP isContextParam =
                    rest.countP isContextParam := by
                  simp [List.countP_cons, isContextParam, hpa]
                cases par with
                | some q => exact ⟨_, rfl⟩
                | none =>
                    dsimp only
                    apply ih
                    rcases htail with hx | hx | hgt | hgt
                    · exact Or.inl hx
                    · exact Or.inr (Or.inl hx)
                    · refine Or.inr (Or.inr (Or.inl ?_))
                      rw [hcount,
                        show (if (none : Option (String ×
                            LegacyParamsClass)).isSome = true then 1 else 0)
                          = 0 from rfl] at hgt
                      rw [show (if (some (p.name, cls)).isSome = true
                          then 1 else 0) = 1 from rfl]
                      omega
                    · refine Or.inr (Or.inr (Or.inr ?_))
                      rw [hcc] at hgt
                      exact hgt
            | stepContext =>
                have hcount : (p :: rest).countP isContextParam =
                    rest.countP isContextParam + 1 := by
                  simp [List.countP_cons, isContextParam, hpa]
                have hpp : (p :: rest).countP isParamsObject =
                    rest.countP isParamsObject := by
                  simp [List.countP_cons, isParamsObject, hpa]
                cases ctx with
                | some q => exact ⟨_, rfl⟩
                | none =>
                    dsimp only
                    apply ih
                    rcases htail with hx | hx | hgt | hgt
                    · exact Or.inl hx
                    · exact Or.inr (Or.inl hx)
                    · refine Or.inr (Or.inr (Or.inl ?_))
                      rw [hpp] at hgt
                      exact hgt
                    · refine Or.inr (Or.inr (Or.inr ?_))
                      rw [hcount,
                        show (if (none : Option String).isSome = true
                            then 1 else 0) = 0 from rfl] at hgt
                      rw [show (if (some p.name).isSome = true
                          then 1 else 0) = 1 from rfl]
                      omega
            | plain t =>
                have hpp : (p :: rest).countP isParamsObject =
                    rest.countP isParamsObject := by
                  simp [List.countP_cons, isParamsObject, hpa]
                have hcc : (p :: rest).countP isContextParam =
                    rest.countP isContextParam := by
                  simp [List.countP_cons, isContextParam, hpa]
                dsimp only
                apply ih
                rcases htail with hx | hx | hgt | hgt
                · exact Or.inl hx
                · exact Or.inr (Or.inl hx)
                · rw [hpp] at hgt
                  exact Or.inr (Or.inr (Or.inl hgt))
                · rw [hcc] at hgt
                  exact Or.inr (Or.inr (Or.inr hgt))

/-- Defining equation of `validate_entrypoint_function`. -/
theorem validate_entrypoint_function_def (f : EntrypointFunc) :
    validate_entrypoint_function f =
      (match validateParams f.name f.params [] none none with
      | .error e => .error e
      | .ok (inputs, ctx, par) =>
          match f.returnAnnotation with
          | none => .error (.returnTypeAbsent f.name)
          | some ret =>
              .ok
                { inputs := inputs
                  outputs := parse_return_type_annotations ret
                  context := ctx
                  params := par }) := rfl

/-- On a well-formed entrypoint, validation returns the full typed
interface descriptor. -/
theorem validate_entrypoint_ok_of_good (f : EntrypointFunc)
    (hnb : ¬ badEntrypoint f) :
    validate_entrypoint_function f =
      .ok { inputs := plainInputs f.params
            outputs := parse_return_type_annotations
              (f.returnAnnotation.getD .noneType)
            context := (ctxNames f.params).head?
            params := (parEntries f.params).head? } := by
  unfold badEntrypoint at hnb
  push_neg at hnb
  obtain ⟨hv, ha, hp, hc, hr⟩ := hnb
  have hv' : ∀ p ∈ f.params, isVariadic p = false :=
    fun p hm => Bool.eq_false_iff.mpr (hv p hm)
  have ha' : ∀ p ∈ f.params, p.annotation.isSome = true := by
    intro p hm
    cases hpa : p.annotation with
    | none => exact absurd (by rw [hpa]; rfl) (ha p hm)
    | some a => rfl
  have hok := validateParams_ok f.name f.params [] none none hv' ha'
    (by
      rw [show (if (none : Option (String ×
          LegacyParamsClass)).isSome = true then 1 else 0) = 0 from rfl]
      omega)
    (by
      rw [show (if (none : Option String).isSome = true then 1 else 0) = 0
        from rfl]
      omega)
  rw [validate_entrypoint_function_def, hok]
  dsimp only
  cases hra : f.returnAnnotation with
  | none => exact absurd (by rw [hra]; rfl) hr
  | some ret => simp [headOr]

/-- C7: interface analysis fails if and only if the callable has a
variadic positional or keyword parameter, a parameter without a type
annotation (necessarily non-context and non-parameter-object, since both
are recognized by their annotations), more than one parameter-object
parameter, more than one context parameter, or a missing return
annotation; otherwise it returns the full typed interface descriptor —
the typed inputs in order, the parsed outputs, and the context and
parameter-object names — never a partial one. -/
theorem C7_interface_validation_iff (f : EntrypointFunc) :
    ((∃ e, validate_entrypoint_function f = .error e) ↔ badEntrypoint f) ∧
    (¬ badEntrypoint f →
      validate_entrypoint_function f =
        .ok { inputs := plainInputs f.params
              outputs := parse_return_type_annotations
                (f.returnAnnotation.getD .noneType)
              context := (ctxNames f.params).head?
              params := (parEntries f.params).head? }) := by
  constructor
  · constructor
    · intro ⟨e, he⟩
      by_contra hnb
      rw [validate_entrypoint_ok_of_good f hnb] at he
      simp at he
    · intro hbad
      have hzero1 : (if (none : Option (String ×
          LegacyParamsClass)).isSome = true then 1 else 0) = 0 := rfl
      have hzero2 : (if (none : Option String).isSome = true
          then 1 else 0) = 0 := rfl
      rcases hbad with h4 | h4 | h4 | h4 | h5
      · obtain ⟨e, herr⟩ := validateParams_error f.name f.params [] none none
          (Or.inl h4)
        exact ⟨e, by rw [validate_entrypoint_function_def, herr]⟩
      · obtain ⟨e, herr⟩ := validateParams_error f.name f.params [] none none
          (Or.inr (Or.inl h4))
        exact ⟨e, by rw [validate_entrypoint_function_def, herr]⟩
      · obtain ⟨e, herr⟩ := validateParams_error f.name f.params [] none none
          (Or.inr (Or.inr (Or.inl (by rw [hzero1]; omega))))
        exact ⟨e, by rw [validate_entrypoint_function_def, herr]⟩
      · obtain ⟨e, herr⟩ := validateParams_error f.name f.params [] none none
          (Or.inr (Or.inr (Or.inr (by rw [hzero2]; omega))))
        exact ⟨e, by rw [validate_entrypoint_function_def, herr]⟩
      · have hnone : f.returnAnnotation = none :=
          Option.isNone_iff_eq_none.mp h5
        cases hres : validateParams f.name f.params [] none none with
        | error e =>
            exact ⟨e, by rw [validate_entrypoint_function_def, hres]⟩
        | ok res =>
            obtain ⟨inputs, ctx, par⟩ := res
            refine ⟨.returnTypeAbsent f.name, ?_⟩
            rw [validate_entrypoint_function_def, hres]
            dsimp only
            rw [hnone]
  · exact validate_entrypoint_ok_of_good f

end ZenML
